import Mathlib

/-!
Verification of the PCB defect-detection orchestration service.

The development shallowly embeds the three Python source files:
  * `pcb_model/pcb_db.py`   — Supabase helpers and the side-effect-only
    orchestrator `save_detection_to_supabase`;
  * `pcb_model/app/pcb_db.py` — the same helpers plus the payload-returning
    orchestrator `save_detection_to_supabase_and_get_urls`;
  * `main.py`               — the FastAPI request handler `detect_pcb`.

External collaborators (the YOLO model call `run_pcb_detection`, the Supabase
client, `uuid.uuid4`, `os.remove`) are modelled as parameters of an
environment record `Env`.  Every externally visible action of the code
(storage upload, row insert, model invocation) is recorded in an ordered
event trace inside the state `St`, so insertion counts, referential
integrity and ordering can be stated as theorems about that trace.
Machine-level concerns (actual HTTP transport, genuine randomness of UUIDs,
POSIX path resolution) stay outside the embedding; where a claim touches
them this is noted at the corresponding theorem.
-/

/-- JSON-like value stored in an inserted row.  `null` models Python `None`;
`num` models the float confidence score (carried verbatim, so a rational
representation is faithful for the data-flow properties proved here). -/
inductive Jval where
  | null : Jval
  | str : String → Jval
  | int : Int → Jval
  | num : Rat → Jval
deriving DecidableEq

/-- Python `str | None` turned into a row value: `None` becomes an explicit
JSON null, mirroring how the Supabase client serialises `None` dict values. -/
def joptStr : Option String → Jval
  | some s => Jval.str s
  | none => Jval.null

/-- The annotated composite image produced by the Detection Adapter
(`detection_result["annotated_image"]` in the source). -/
structure Annotated where
  bytes : List Nat
  width : Int
  height : Int
  original_filename : Option String
deriving DecidableEq

/-- One defect crop descriptor (`detection_result["crops"][i]`).  The bbox is
a Python dict (possibly `None`), modelled as an optional association list so
that Python dict truthiness and `.get` lookups are represented exactly. -/
structure Crop where
  bytes : List Nat
  width : Int
  height : Int
  prediction : String
  confidence : Rat
  bbox : Option (List (String × Int))
deriving DecidableEq

/-- Transient output of `run_pcb_detection`. -/
structure DetectionResult where
  annotated_image : Annotated
  crops : List Crop
deriving DecidableEq

/-- One externally visible action of the program, in the order performed:
a model invocation, an object-storage write (bucket, path, bytes,
content type), or a row insert into one of the two tables (generated id,
inserted payload). -/
inductive Event where
  | detectCall : String → String → Event
  | storagePut : String → String → List Nat → String → Event
  | insertMain : String → List (String × Jval) → Event
  | insertCrop : String → List (String × Jval) → Event
deriving DecidableEq

/-- Backend-facing state: counters indexing the successive draws from the
UUID source and the successive upload / insert calls (used by the
environment to decide which call fails), plus the ordered event trace. -/
structure St where
  uuidCtr : Nat
  uploadCtr : Nat
  insertCtr : Nat
  events : List Event
deriving DecidableEq

/-- `SUPABASE_URL = os.getenv("SUPABASE_URL")` — environment-sourced. -/
def SUPABASE_URL (environ : String → Option String) : Option String :=
  environ "SUPABASE_URL"

/-- `SUPABASE_KEY = os.getenv("SUPABASE_SERVICE_ROLE_KEY")`. -/
def SUPABASE_KEY (environ : String → Option String) : Option String :=
  environ "SUPABASE_SERVICE_ROLE_KEY"

/-- `BUCKET_NAME = os.getenv("SUPABASE_BUCKET_NAME", "pcb-images")` —
environment-sourced with a documented default. -/
def BUCKET_NAME (environ : String → Option String) : String :=
  (environ "SUPABASE_BUCKET_NAME").getD "pcb-images"

/-- Environment of external collaborators: the process environment, the
stream of values drawn from `uuid.uuid4()`, the public-URL function of the
storage client, which upload / insert calls succeed, the row-id generator of
the database, the detection model, and whether `os.remove` succeeds. -/
structure Env where
  environ : String → Option String
  uuids : Nat → String
  publicUrl : String → String → String
  uploadOk : Nat → Bool
  insertOk : Nat → Bool
  rowId : Nat → String
  detect : String → String → Except String DetectionResult
  removeOk : Bool

/-- `upload_to_storage(bytes_data, folder, ext="png")`: forms
`f"{folder}/{uuid.uuid4().hex}.{ext}"`, uploads the bytes under that path in
the configured bucket with content type `f"image/{ext}"`, and returns the
storage path together with the client's public URL for it.  A failing upload
raises (`Except.error`) after the UUID was already drawn. -/
def upload_to_storage (env : Env) (σ : St) (bytes_data : List Nat) (folder : String)
    (ext : String := "png") : St × Except String (String × String) :=
  let filename := env.uuids σ.uuidCtr ++ "." ++ ext
  let storage_path := folder ++ "/" ++ filename
  if env.uploadOk σ.uploadCtr then
    let bucket := BUCKET_NAME env.environ
    ({ σ with
        uuidCtr := σ.uuidCtr + 1
        uploadCtr := σ.uploadCtr + 1
        events := σ.events ++ [Event.storagePut bucket storage_path bytes_data ("image/" ++ ext)] },
     Except.ok (storage_path, env.publicUrl bucket storage_path))
  else
    ({ σ with uuidCtr := σ.uuidCtr + 1, uploadCtr := σ.uploadCtr + 1 },
     Except.error "UploadError")

/-- The dict literal built by `insert_main_image`: every optional field is a
key that is always present, with Python `None` serialised as null. -/
def mainImageRow (storage_path public_url : String) (width height : Int)
    (original_filename board_code note : Option String) : List (String × Jval) :=
  [("storage_path", Jval.str storage_path),
   ("public_url", Jval.str public_url),
   ("width", Jval.int width),
   ("height", Jval.int height),
   ("original_filename", joptStr original_filename),
   ("board_code", joptStr board_code),
   ("note", joptStr note)]

/-- `insert_main_image(...) -> str`: inserts one row into `pcb_main_images`
and returns the generated id.  A failing insert raises. -/
def insert_main_image (env : Env) (σ : St) (storage_path public_url : String)
    (width height : Int) (original_filename : Option String := none)
    (board_code : Option String := none) (note : Option String := none) :
    St × Except String String :=
  let data := mainImageRow storage_path public_url width height
    original_filename board_code note
  if env.insertOk σ.insertCtr then
    let i := env.rowId σ.insertCtr
    ({ σ with
        insertCtr := σ.insertCtr + 1
        events := σ.events ++ [Event.insertMain i data] },
     Except.ok i)
  else
    ({ σ with insertCtr := σ.insertCtr + 1 }, Except.error "PersistenceError")

/-- Python truthiness of the `bbox` argument (`if bbox:`): `None` and the
empty dict are falsy; a non-empty dict is truthy. -/
def dictTruthy : Option (List (String × Int)) → Bool
  | some (_ :: _) => true
  | _ => false

/-- `bbox.get(k)` serialised into the row: a missing key becomes null. -/
def bboxGet (b : List (String × Int)) (k : String) : Jval :=
  match b.lookup k with
  | some v => Jval.int v
  | none => Jval.null

/-- The dict literal built by `insert_defect_crop`: the four bbox columns are
added only when the `bbox` argument is truthy. -/
def cropRowData (main_image_id crop_storage_path crop_public_url : String)
    (crop_width crop_height : Int) (prediction : String) (confidence : Rat)
    (bbox : Option (List (String × Int))) : List (String × Jval) :=
  let base := [("main_image_id", Jval.str main_image_id),
    ("crop_storage_path", Jval.str crop_storage_path),
    ("crop_public_url", Jval.str crop_public_url),
    ("crop_width", Jval.int crop_width),
    ("crop_height", Jval.int crop_height),
    ("prediction", Jval.str prediction),
    ("confidence", Jval.num confidence)]
  match bbox with
  | some ((k, v) :: rest) =>
      base ++ [("bbox_x", bboxGet ((k, v) :: rest) "x"),
               ("bbox_y", bboxGet ((k, v) :: rest) "y"),
               ("bbox_width", bboxGet ((k, v) :: rest) "w"),
               ("bbox_height", bboxGet ((k, v) :: rest) "h")]
  | _ => base

/-- `insert_defect_crop(...)`: inserts one row into `pcb_defect_crops` and
returns the stored row (modelled as generated id plus inserted payload). -/
def insert_defect_crop (env : Env) (σ : St) (main_image_id crop_storage_path
    crop_public_url : String) (crop_width crop_height : Int) (prediction : String)
    (confidence : Rat) (bbox : Option (List (String × Int)) := none) :
    St × Except String (String × List (String × Jval)) :=
  let data := cropRowData main_image_id crop_storage_path crop_public_url
    crop_width crop_height prediction confidence bbox
  if env.insertOk σ.insertCtr then
    let i := env.rowId σ.insertCtr
    ({ σ with
        insertCtr := σ.insertCtr + 1
        events := σ.events ++ [Event.insertCrop i data] },
     Except.ok (i, data))
  else
    ({ σ with insertCtr := σ.insertCtr + 1 }, Except.error "PersistenceError")

/-- The crop loop of `save_detection_to_supabase` (step 4): for each crop in
order, upload then insert, aborting the remaining loop on the first raise. -/
def saveCrops (env : Env) (σ : St) (main_image_id : String) :
    List Crop → St × Except String Unit
  | [] => (σ, Except.ok ())
  | crop :: rest =>
    match upload_to_storage env σ crop.bytes "pcb/crops" "png" with
    | (σ1, Except.error e) => (σ1, Except.error e)
    | (σ1, Except.ok (csp, cpu)) =>
      match insert_defect_crop env σ1 main_image_id csp cpu crop.width crop.height
          crop.prediction crop.confidence crop.bbox with
      | (σ2, Except.error e) => (σ2, Except.error e)
      | (σ2, Except.ok _) => saveCrops env σ2 main_image_id rest

/-- `save_detection_to_supabase` (pcb_model/pcb_db.py): run the model, upload
the annotated image to `pcb/main`, insert the MainImage row, then process
each crop in order.  Returns nothing (side effects only); any raise
propagates with all side effects so far retained in the state. -/
def save_detection_to_supabase (env : Env) (σ : St) (image_path : String)
    (model_path : String := "best.pt") (board_code : Option String := none)
    (note : Option String := none) : St × Except String Unit :=
  let σ0 := { σ with events := σ.events ++ [Event.detectCall image_path model_path] }
  match env.detect image_path model_path with
  | Except.error e => (σ0, Except.error e)
  | Except.ok dr =>
    match upload_to_storage env σ0 dr.annotated_image.bytes "pcb/main" "png" with
    | (σ1, Except.error e) => (σ1, Except.error e)
    | (σ1, Except.ok (msp, mpu)) =>
      match insert_main_image env σ1 msp mpu dr.annotated_image.width
          dr.annotated_image.height dr.annotated_image.original_filename
          board_code note with
      | (σ2, Except.error e) => (σ2, Except.error e)
      | (σ2, Except.ok mid) => saveCrops env σ2 mid dr.crops

/-- Per-crop entry of the payload assembled by the variant orchestrator. -/
structure CropPayload where
  id : String
  crop_storage_path : String
  crop_public_url : String
  width : Int
  height : Int
  prediction : String
  confidence : Rat
  bbox : Option (List (String × Int))
deriving DecidableEq

/-- `main_image` entry of the payload assembled by the variant orchestrator. -/
structure MainPayload where
  id : String
  storage_path : String
  public_url : String
  width : Int
  height : Int
  original_filename : Option String
  board_code : Option String
  note : Option String
deriving DecidableEq

/-- Return value of `save_detection_to_supabase_and_get_urls`. -/
structure ResultPayload where
  main_image : MainPayload
  crops : List CropPayload
deriving DecidableEq

/-- Crop loop of `save_detection_to_supabase_and_get_urls`: identical uploads
and inserts, additionally accumulating the per-crop payload entries. -/
def saveCropsUrls (env : Env) (σ : St) (main_image_id : String) :
    List Crop → St × Except String (List CropPayload)
  | [] => (σ, Except.ok [])
  | crop :: rest =>
    match upload_to_storage env σ crop.bytes "pcb/crops" "png" with
    | (σ1, Except.error e) => (σ1, Except.error e)
    | (σ1, Except.ok (csp, cpu)) =>
      match insert_defect_crop env σ1 main_image_id csp cpu crop.width crop.height
          crop.prediction crop.confidence crop.bbox with
      | (σ2, Except.error e) => (σ2, Except.error e)
      | (σ2, Except.ok dres) =>
        match saveCropsUrls env σ2 main_image_id rest with
        | (σ3, Except.error e) => (σ3, Except.error e)
        | (σ3, Except.ok tail) =>
          let entry : CropPayload :=
            ⟨dres.1, csp, cpu, crop.width, crop.height, crop.prediction,
              crop.confidence, crop.bbox⟩
          (σ3, Except.ok (entry :: tail))

/-- `save_detection_to_supabase_and_get_urls` (pcb_model/app/pcb_db.py): the
same pipeline as `save_detection_to_supabase`, returning the full payload of
identifiers, URLs and metadata instead of nothing. -/
def save_detection_to_supabase_and_get_urls (env : Env) (σ : St) (image_path : String)
    (model_path : String) (board_code : Option String := none)
    (note : Option String := none) : St × Except String ResultPayload :=
  let σ0 := { σ with events := σ.events ++ [Event.detectCall image_path model_path] }
  match env.detect image_path model_path with
  | Except.error e => (σ0, Except.error e)
  | Except.ok dr =>
    match upload_to_storage env σ0 dr.annotated_image.bytes "pcb/main" "png" with
    | (σ1, Except.error e) => (σ1, Except.error e)
    | (σ1, Except.ok (msp, mpu)) =>
      match insert_main_image env σ1 msp mpu dr.annotated_image.width
          dr.annotated_image.height dr.annotated_image.original_filename
          board_code note with
      | (σ2, Except.error e) => (σ2, Except.error e)
      | (σ2, Except.ok mid) =>
        match saveCropsUrls env σ2 mid dr.crops with
        | (σ3, Except.error e) => (σ3, Except.error e)
        | (σ3, Except.ok tail) =>
          let mainPayload : MainPayload :=
            ⟨mid, msp, mpu, dr.annotated_image.width, dr.annotated_image.height,
              dr.annotated_image.original_filename, board_code, note⟩
          (σ3, Except.ok ⟨mainPayload, tail⟩)

/-- Python `str.startswith`, computed on the character lists so that concrete
instances reduce inside the kernel. -/
def strStartsWith (s pre : String) : Bool :=
  List.isPrefixOf pre.data s.data

/-- The multipart upload received by the handler. -/
structure UploadFileM where
  filename : String
  content_type : String
  contents : List Nat
deriving DecidableEq

/-- Local filesystem as a list of (path, bytes) entries; a write conses. -/
def fsWrite (fs : List (String × List Nat)) (p : String) (b : List Nat) :
    List (String × List Nat) :=
  (p, b) :: fs

/-- `os.remove`: drop every entry stored at the path. -/
def fsRemove (fs : List (String × List Nat)) (p : String) :
    List (String × List Nat) :=
  fs.filter (fun e => e.1 != p)

/-- `os.path.exists`. -/
def fsExists (fs : List (String × List Nat)) (p : String) : Bool :=
  fs.any (fun e => e.1 == p)

/-- One step of lexical path normalisation: `..` pops a component, empty and
`.` components vanish, anything else is pushed. -/
def normComp (acc : List String) (seg : String) : List String :=
  if seg = ".." then acc.dropLast
  else if seg = "" ∨ seg = "." then acc
  else acc ++ [seg]

/-- Split a character list at every slash. -/
def splitSlashAux : List Char → List (List Char)
  | [] => [[]]
  | c :: rest =>
    let r := splitSlashAux rest
    if c = '/' then [] :: r
    else
      match r with
      | [] => [[c]]
      | g :: gs => (c :: g) :: gs

/-- Rejoin path components with slashes. -/
def joinSlash : List String → String
  | [] => ""
  | [s] => s
  | s :: rest => s ++ "/" ++ joinSlash rest

/-- Purely lexical resolution of `/`-separated paths, used to interpret where
a constructed path string points relative to the uploads directory. -/
def lexNormalize (p : String) : String :=
  joinSlash (((splitSlashAux p.data).map String.mk).foldl normComp [])

/-- POSIX-style traversal of the directory components of a relative path, as
`open` performs it: components are consumed in order (`..` stepping back, `.`
and empty components vanishing), and every intermediate directory reached
must exist in `dirs`; the empty stack is the working directory, which exists.
Symlinks are outside the model. -/
def walkDirs (dirs : List String) : List String → List String → Bool
  | _, [] => true
  | acc, seg :: rest =>
    let acc2 := normComp acc seg
    if acc2.isEmpty then walkDirs dirs acc2 rest
    else if dirs.contains (joinSlash acc2) then walkDirs dirs acc2 rest
    else false

/-- Does `open(p, "wb")` succeed?  Every directory component of `p` (all path
components but the last) must resolve to an existing directory; otherwise the
call raises `FileNotFoundError` and writes nothing. -/
def pathWritable (dirs : List String) (p : String) : Bool :=
  walkDirs dirs [] (((splitSlashAux p.data).map String.mk).dropLast)

/-- Body of the success `JSONResponse` in `detect_pcb`, field for field. -/
structure SuccessPayload where
  status : String
  message : String
  board_code : Option String
  note : Option String
  original_filename : String
deriving DecidableEq

/-- Outcome of the handler: the success JSON body, or an `HTTPException`
with a status code and detail string. -/
inductive Response where
  | jsonOk : SuccessPayload → Response
  | httpError : Nat → String → Response
deriving DecidableEq

/-- Full observable state of one handler run: local files, the set of local
directories that exist (the module-level `os.makedirs(UPLOAD_DIR,
exist_ok=True)` guarantees `"uploads"` is among them; the handler itself
never creates a directory), and the backend state. -/
structure WebSt where
  fs : List (String × List Nat)
  dirs : List String
  db : St
deriving DecidableEq

/-- `UPLOAD_DIR = "uploads"` from main.py. -/
def UPLOAD_DIR : String := "uploads"

/-- `f"{uuid4()}_{file.filename}"` — the temporary file name embeds the
client-supplied filename verbatim, with no sanitisation. -/
def tmpName (env : Env) (σ : St) (origName : String) : String :=
  env.uuids σ.uuidCtr ++ "_" ++ origName

/-- The `finally` block of `detect_pcb`: if the temporary file exists, try to
remove it; a failing removal is swallowed and leaves the filesystem as is. -/
def tryCleanup (env : Env) (fs : List (String × List Nat)) (p : String) :
    List (String × List Nat) :=
  if fsExists fs p then (if env.removeOk then fsRemove fs p else fs) else fs

/-- `detect_pcb` (main.py): reject non-image content types with a 400 before
any side effect; otherwise attempt to write the bytes to
`os.path.join("uploads", f"{uuid4()}_{file.filename}")` (plain concatenation,
since the joined name starts with the UUID and is never absolute).  The
`open(tmp_path, "wb")` call succeeds only when every intermediate directory
of the path exists (`pathWritable`); otherwise it raises
`FileNotFoundError`, which the bare `except` wraps into the 500 — with the
UUID already consumed, no file written, no model or backend call made, and
the cleanup block a no-op since `os.path.exists(tmp_path)` is false.  On a
successful write, run `save_detection_to_supabase` with the hard-coded model
path `"pcb_model/best.pt"`, always run the cleanup block, and answer either
the fixed success JSON echoing `board_code`, `note` and the original
filename, or a 500 wrapping the stringified failure. -/
def detect_pcb (env : Env) (w : WebSt) (file : UploadFileM)
    (board_code note : Option String) : WebSt × Response :=
  if strStartsWith file.content_type "image/" then
    let tmp_path := UPLOAD_DIR ++ "/" ++ tmpName env w.db file.filename
    let db0 := { w.db with uuidCtr := w.db.uuidCtr + 1 }
    if pathWritable w.dirs tmp_path then
      let fs0 := fsWrite w.fs tmp_path file.contents
      match save_detection_to_supabase env db0 tmp_path "pcb_model/best.pt"
          board_code note with
      | (db1, Except.error e) =>
          ({ w with fs := tryCleanup env fs0 tmp_path, db := db1 },
           Response.httpError 500 ("processing error: " ++ e))
      | (db1, Except.ok _) =>
          ({ w with fs := tryCleanup env fs0 tmp_path, db := db1 },
           Response.jsonOk ⟨"ok", "Image processed and saved to Supabase.",
             board_code, note, file.filename⟩)
    else
      ({ w with db := db0 },
       Response.httpError 500 "processing error: FileNotFoundError")
  else
    (w, Response.httpError 400 "กรุณาอัปโหลดไฟล์รูปภาพเท่านั้น")

/-- Does the event insert a `pcb_main_images` row? -/
def isInsertMainB : Event → Bool
  | Event.insertMain _ _ => true
  | _ => false

/-- Does the event insert a `pcb_defect_crops` row? -/
def isInsertCropB : Event → Bool
  | Event.insertCrop _ _ => true
  | _ => false

/-- The `main_image_id` value carried by a crop-insert event. -/
def cropRef : Event → Option Jval
  | Event.insertCrop _ row => row.lookup "main_image_id"
  | _ => none

/-- The `prediction` value carried by a crop-insert event. -/
def cropPred : Event → Option Jval
  | Event.insertCrop _ row => row.lookup "prediction"
  | _ => none

/-- The model path of a detection-call event. -/
def modelPathOf : Event → Option String
  | Event.detectCall _ m => some m
  | _ => none

/-- Database view of an inserted payload: a key omitted from the insert dict
leaves the column at its default, null. -/
def colValue (row : List (String × Jval)) (k : String) : Jval :=
  (row.lookup k).getD Jval.null

/-- Concrete crop used to exercise the pipeline (the §8 scenario's first
defect: label scratch, confidence 0.91, bbox present). -/
def testCrop : Crop :=
  ⟨[1, 2, 3], 20, 20, "scratch", (91 : Rat) / 100,
    some [("x", 10), ("y", 10), ("w", 20), ("h", 20)]⟩

/-- Concrete detection result with one crop. -/
def testDR : DetectionResult :=
  ⟨⟨[9, 9, 9], 640, 480, some "board.png"⟩, [testCrop]⟩

/-- Concrete environment where every external call succeeds. -/
def testEnv : Env where
  environ := fun _ => none
  uuids := fun n => "u" ++ toString n
  publicUrl := fun b p => "https://supabase.local/" ++ b ++ "/" ++ p
  uploadOk := fun _ => true
  insertOk := fun _ => true
  rowId := fun n => "row" ++ toString n
  detect := fun _ _ => Except.ok testDR
  removeOk := true

/-- Fresh backend state. -/
def st0 : St := ⟨0, 0, 0, []⟩

/-- Fresh handler state. -/
def w0 : WebSt := ⟨[], ["uploads"], st0⟩

/-- Image upload whose client-supplied filename carries path separators. -/
def evilFile : UploadFileM := ⟨"a/../../evil.png", "image/png", [3, 1]⟩

/-- Concrete image upload. -/
def testFile : UploadFileM := ⟨"board.png", "image/png", [1, 2, 3, 4]⟩

/-- Non-image upload. -/
def badFile : UploadFileM := ⟨"notes.txt", "text/plain", [7, 7]⟩

/-- Environment whose second storage upload (the first crop upload) fails. -/
def failEnv1 : Env := { testEnv with uploadOk := fun n => n != 1 }

/-- Environment with `os.remove` failing. -/
def noRemoveEnv : Env := { testEnv with removeOk := false, uuids := fun _ => "deadbeef" }

/-- Environment in which every configuration variable is set. -/
def envFull : Env := { testEnv with environ := fun k => some ("env-" ++ k) }

/-! ## Trace vocabulary used by the lemmas -/

/-- Storage path generated for a crop upload started in state `σ`. -/
def cropPath (env : Env) (σ : St) : String :=
  "pcb/crops" ++ "/" ++ (env.uuids σ.uuidCtr ++ "." ++ "png")

/-- The storage event of one crop upload. -/
def cropPutEvent (env : Env) (σ : St) (c : Crop) : Event :=
  Event.storagePut (BUCKET_NAME env.environ) (cropPath env σ) c.bytes ("image/" ++ "png")

/-- The row inserted for one crop processed from state `σ`. -/
def cropRowOf (env : Env) (σ : St) (mid : String) (c : Crop) : List (String × Jval) :=
  cropRowData mid (cropPath env σ)
    (env.publicUrl (BUCKET_NAME env.environ) (cropPath env σ))
    c.width c.height c.prediction c.confidence c.bbox

/-- The insert event of one crop. -/
def cropInsEvent (env : Env) (σ : St) (mid : String) (c : Crop) : Event :=
  Event.insertCrop (env.rowId σ.insertCtr) (cropRowOf env σ mid c)

/-- State after one fully successful crop iteration. -/
def cropStepSt (env : Env) (σ : St) (mid : String) (c : Crop) : St :=
  { σ with
      uuidCtr := σ.uuidCtr + 1
      uploadCtr := σ.uploadCtr + 1
      insertCtr := σ.insertCtr + 1
      events := σ.events ++ [cropPutEvent env σ c] ++ [cropInsEvent env σ mid c] }

/-- Storage path generated for the annotated main image. -/
def mainPath (env : Env) (σ : St) : String :=
  "pcb/main" ++ "/" ++ (env.uuids σ.uuidCtr ++ "." ++ "png")

/-- The storage event of the main-image upload. -/
def mainPutEvent (env : Env) (σ : St) (dr : DetectionResult) : Event :=
  Event.storagePut (BUCKET_NAME env.environ) (mainPath env σ)
    dr.annotated_image.bytes ("image/" ++ "png")

/-- The MainImage row inserted by a successful run started in state `σ`. -/
def mainRowOf (env : Env) (σ : St) (dr : DetectionResult)
    (bc nt : Option String) : List (String × Jval) :=
  mainImageRow (mainPath env σ)
    (env.publicUrl (BUCKET_NAME env.environ) (mainPath env σ))
    dr.annotated_image.width dr.annotated_image.height
    dr.annotated_image.original_filename bc nt

/-- The insert event of the MainImage row. -/
def mainInsEvent (env : Env) (σ : St) (dr : DetectionResult)
    (bc nt : Option String) : Event :=
  Event.insertMain (env.rowId σ.insertCtr) (mainRowOf env σ dr bc nt)

/-! ## Step equations for the individual backend operations -/

/-- A successful upload: state change and return value in closed form. -/
theorem upload_ok_eq (env : Env) (σ : St) (b : List Nat) (f x : String)
    (h : env.uploadOk σ.uploadCtr = true) :
    upload_to_storage env σ b f x =
      ({ σ with
          uuidCtr := σ.uuidCtr + 1
          uploadCtr := σ.uploadCtr + 1
          events := σ.events ++ [Event.storagePut (BUCKET_NAME env.environ)
            (f ++ "/" ++ (env.uuids σ.uuidCtr ++ "." ++ x)) b ("image/" ++ x)] },
       Except.ok (f ++ "/" ++ (env.uuids σ.uuidCtr ++ "." ++ x),
         env.publicUrl (BUCKET_NAME env.environ)
           (f ++ "/" ++ (env.uuids σ.uuidCtr ++ "." ++ x)))) := by
  simp [upload_to_storage, h]

/-- A failing upload raises after consuming the UUID; no event is recorded. -/
theorem upload_fail_eq (env : Env) (σ : St) (b : List Nat) (f x : String)
    (h : env.uploadOk σ.uploadCtr = false) :
    upload_to_storage env σ b f x =
      ({ σ with uuidCtr := σ.uuidCtr + 1, uploadCtr := σ.uploadCtr + 1 },
       Except.error "UploadError") := by
  simp [upload_to_storage, h]

/-- A successful MainImage insert in closed form. -/
theorem insert_main_ok_eq (env : Env) (σ : St) (sp pu : String) (wd ht : Int)
    (ofn bc nt : Option String) (h : env.insertOk σ.insertCtr = true) :
    insert_main_image env σ sp pu wd ht ofn bc nt =
      ({ σ with
          insertCtr := σ.insertCtr + 1
          events := σ.events ++ [Event.insertMain (env.rowId σ.insertCtr)
            (mainImageRow sp pu wd ht ofn bc nt)] },
       Except.ok (env.rowId σ.insertCtr)) := by
  simp [insert_main_image, h]

/-- A successful DefectCrop insert in closed form. -/
theorem insert_crop_ok_eq (env : Env) (σ : St) (mid csp cpu : String)
    (cw ch : Int) (pr : String) (cf : Rat) (bb : Option (List (String × Int)))
    (h : env.insertOk σ.insertCtr = true) :
    insert_defect_crop env σ mid csp cpu cw ch pr cf bb =
      ({ σ with
          insertCtr := σ.insertCtr + 1
          events := σ.events ++ [Event.insertCrop (env.rowId σ.insertCtr)
            (cropRowData mid csp cpu cw ch pr cf bb)] },
       Except.ok (env.rowId σ.insertCtr,
         cropRowData mid csp cpu cw ch pr cf bb)) := by
  simp [insert_defect_crop, h]

/-- A failing MainImage insert raises `PersistenceError` without an event. -/
theorem insert_main_fail_eq (env : Env) (σ : St) (sp pu : String) (wd ht : Int)
    (ofn bc nt : Option String) (h : env.insertOk σ.insertCtr = false) :
    insert_main_image env σ sp pu wd ht ofn bc nt =
      ({ σ with insertCtr := σ.insertCtr + 1 }, Except.error "PersistenceError") := by
  simp [insert_main_image, h]

/-- A failing DefectCrop insert raises `PersistenceError` without an event. -/
theorem insert_crop_fail_eq (env : Env) (σ : St) (mid csp cpu : String)
    (cw ch : Int) (pr : String) (cf : Rat) (bb : Option (List (String × Int)))
    (h : env.insertOk σ.insertCtr = false) :
    insert_defect_crop env σ mid csp cpu cw ch pr cf bb =
      ({ σ with insertCtr := σ.insertCtr + 1 }, Except.error "PersistenceError") := by
  simp [insert_defect_crop, h]

/-! ## Row-payload lookups -/

/-- Every crop row references the MainImage id it was built with. -/
theorem cropRowData_lookup_mid (mid csp cpu : String) (cw ch : Int) (pr : String)
    (cf : Rat) (bb : Option (List (String × Int))) :
    (cropRowData mid csp cpu cw ch pr cf bb).lookup "main_image_id"
      = some (Jval.str mid) := by
  match bb with
  | none => rfl
  | some [] => rfl
  | some ((k, v) :: r) => rfl

/-- Every crop row carries its prediction label. -/
theorem cropRowData_lookup_pred (mid csp cpu : String) (cw ch : Int) (pr : String)
    (cf : Rat) (bb : Option (List (String × Int))) :
    (cropRowData mid csp cpu cw ch pr cf bb).lookup "prediction"
      = some (Jval.str pr) := by
  match bb with
  | none => rfl
  | some [] => rfl
  | some ((k, v) :: r) => rfl

/-! ## Crop-loop lemmas -/

/-- When every upload and insert succeeds, the crop loop succeeds and appends
a block of events containing no MainImage insert, one DefectCrop insert per
crop, each referencing the given MainImage id, with predictions recorded in
the crop order. -/
theorem saveCrops_ok (env : Env) (mid : String) (hU : ∀ n, env.uploadOk n = true)
    (hI : ∀ n, env.insertOk n = true) :
    ∀ (crops : List Crop) (σ : St),
    ∃ σ' B, saveCrops env σ mid crops = (σ', Except.ok ()) ∧
      σ'.events = σ.events ++ B ∧
      B.countP isInsertMainB = 0 ∧
      B.countP isInsertCropB = crops.length ∧
      (∀ e ∈ B, isInsertCropB e = true → cropRef e = some (Jval.str mid)) ∧
      B.filterMap cropPred = crops.map (fun c => Jval.str c.prediction) := by
  intro crops
  induction crops with
  | nil =>
    intro σ
    exact ⟨σ, [], rfl, by simp, rfl, rfl, by simp, rfl⟩
  | cons c rest ih =>
    intro σ
    simp only [saveCrops, upload_to_storage, insert_defect_crop, hU, hI, if_true]
    obtain ⟨σ', B', heq, hev, hm, hc, href, hpred⟩ := ih (cropStepSt env σ mid c)
    refine ⟨σ', cropPutEvent env σ c :: cropInsEvent env σ mid c :: B', heq, ?_, ?_, ?_, ?_, ?_⟩
    · rw [hev]
      simp [cropStepSt, List.append_assoc]
    · simp [List.countP_cons, cropPutEvent, cropInsEvent, isInsertMainB, hm]
    · simp [List.countP_cons, cropPutEvent, cropInsEvent, isInsertCropB, hc]
    · intro e he hcrop
      simp only [List.mem_cons] at he
      rcases he with rfl | rfl | he
      · simp [cropPutEvent, isInsertCropB] at hcrop
      · simp [cropInsEvent, cropRef, cropRowOf, cropRowData_lookup_mid]
      · exact href e he hcrop
    · simp [List.filterMap_cons, cropPutEvent, cropInsEvent, cropPred, cropRowOf,
        cropRowData_lookup_pred, hpred]

/-- The crop loop only ever appends to the event trace. -/
theorem saveCrops_events (env : Env) (mid : String) :
    ∀ (crops : List Crop) (σ : St),
    ∃ t, (saveCrops env σ mid crops).1.events = σ.events ++ t := by
  intro crops
  induction crops with
  | nil =>
    intro σ
    exact ⟨[], by simp [saveCrops]⟩
  | cons c rest ih =>
    intro σ
    cases hu : env.uploadOk σ.uploadCtr with
    | false =>
      refine ⟨[], ?_⟩
      simp [saveCrops, upload_to_storage, hu]
    | true =>
      cases hi : env.insertOk σ.insertCtr with
      | false =>
        refine ⟨[cropPutEvent env σ c], ?_⟩
        simp [saveCrops, upload_to_storage, insert_defect_crop, hu, hi,
          cropPutEvent, cropPath]
      | true =>
        simp only [saveCrops, upload_to_storage, insert_defect_crop, hu, hi, if_true]
        obtain ⟨t, ht⟩ := ih (cropStepSt env σ mid c)
        refine ⟨cropPutEvent env σ c :: cropInsEvent env σ mid c :: t, ?_⟩
        have ht' : (saveCrops env (cropStepSt env σ mid c) mid rest).1.events
            = σ.events ++ (cropPutEvent env σ c :: cropInsEvent env σ mid c :: t) := by
          rw [ht]
          simp [cropStepSt, List.append_assoc]
        exact ht'

/-- Every run of the orchestrator first records the model invocation (with
the model path passed by the caller) and then only appends further events. -/
theorem save_detection_events (env : Env) (σ : St) (ip mp : String)
    (bc nt : Option String) :
    ∃ t, (save_detection_to_supabase env σ ip mp bc nt).1.events
      = σ.events ++ Event.detectCall ip mp :: t := by
  cases hd : env.detect ip mp with
  | error e =>
    refine ⟨[], ?_⟩
    simp [save_detection_to_supabase, hd]
  | ok dr =>
    cases hu : env.uploadOk σ.uploadCtr with
    | false =>
      refine ⟨[], ?_⟩
      simp [save_detection_to_supabase, upload_to_storage, hd, hu]
    | true =>
      cases hi : env.insertOk σ.insertCtr with
      | false =>
        refine ⟨[mainPutEvent env σ dr], ?_⟩
        simp [save_detection_to_supabase, upload_to_storage, insert_main_image,
          hd, hu, hi, mainPutEvent, mainPath, List.append_assoc]
      | true =>
        simp only [save_detection_to_supabase, upload_to_storage, insert_main_image,
          hd, hu, hi, if_true]
        obtain ⟨t, ht⟩ :=
          saveCrops_events env (env.rowId σ.insertCtr) dr.crops
            { σ with
                uuidCtr := σ.uuidCtr + 1
                uploadCtr := σ.uploadCtr + 1
                insertCtr := σ.insertCtr + 1
                events := σ.events ++ [Event.detectCall ip mp] ++ [mainPutEvent env σ dr]
                  ++ [mainInsEvent env σ dr bc nt] }
        refine ⟨mainPutEvent env σ dr :: mainInsEvent env σ dr bc nt :: t, ?_⟩
        have ht' : (saveCrops env
            { σ with
                uuidCtr := σ.uuidCtr + 1
                uploadCtr := σ.uploadCtr + 1
                insertCtr := σ.insertCtr + 1
                events := σ.events ++ [Event.detectCall ip mp] ++ [mainPutEvent env σ dr]
                  ++ [mainInsEvent env σ dr bc nt] }
            (env.rowId σ.insertCtr) dr.crops).1.events
            = σ.events ++ Event.detectCall ip mp ::
                mainPutEvent env σ dr :: mainInsEvent env σ dr bc nt :: t := by
          rw [ht]
          simp [List.append_assoc]
        exact ht'

/-- Master characterisation of a fully successful orchestrator run: the model
call, one main-image upload, exactly one MainImage insert (row and generated
id in closed form), followed by a block `B` of crop events containing no
further MainImage insert, one DefectCrop insert per crop referencing the
MainImage id, with predictions in crop order. -/
theorem save_detection_ok (env : Env) (σ : St) (ip mp : String) (bc nt : Option String)
    (dr : DetectionResult) (hd : env.detect ip mp = Except.ok dr)
    (hU : ∀ n, env.uploadOk n = true) (hI : ∀ n, env.insertOk n = true) :
    ∃ σ' B, save_detection_to_supabase env σ ip mp bc nt = (σ', Except.ok ()) ∧
      σ'.events = σ.events ++ [Event.detectCall ip mp, mainPutEvent env σ dr]
        ++ mainInsEvent env σ dr bc nt :: B ∧
      B.countP isInsertMainB = 0 ∧
      B.countP isInsertCropB = dr.crops.length ∧
      (∀ e ∈ B, isInsertCropB e = true →
        cropRef e = some (Jval.str (env.rowId σ.insertCtr))) ∧
      B.filterMap cropPred = dr.crops.map (fun c => Jval.str c.prediction) := by
  simp only [save_detection_to_supabase, upload_to_storage, insert_main_image,
    hd, hU, hI, if_true]
  obtain ⟨σ', B, heq, hev, hm, hc, href, hpred⟩ :=
    saveCrops_ok env (env.rowId σ.insertCtr) hU hI dr.crops
      { σ with
          uuidCtr := σ.uuidCtr + 1
          uploadCtr := σ.uploadCtr + 1
          insertCtr := σ.insertCtr + 1
          events := σ.events ++ [Event.detectCall ip mp] ++ [mainPutEvent env σ dr]
            ++ [mainInsEvent env σ dr bc nt] }
  refine ⟨σ', B, heq, ?_, hm, hc, href, hpred⟩
  rw [hev]
  simp [List.append_assoc]

/-- If the upload of the crop at 0-based index `j` fails while every earlier
upload and every insert succeeds, the crop loop raises `UploadError` having
appended exactly `j` DefectCrop inserts and no MainImage insert. -/
theorem saveCrops_failAt (env : Env) (mid : String) (hI : ∀ n, env.insertOk n = true) :
    ∀ (crops : List Crop) (j : Nat) (σ : St), j < crops.length →
    (∀ i, i < j → env.uploadOk (σ.uploadCtr + i) = true) →
    env.uploadOk (σ.uploadCtr + j) = false →
    ∃ σ' B, saveCrops env σ mid crops = (σ', Except.error "UploadError") ∧
      σ'.events = σ.events ++ B ∧
      B.countP isInsertMainB = 0 ∧
      B.countP isInsertCropB = j := by
  intro crops
  induction crops with
  | nil =>
    intro j σ hj
    exact absurd hj (by simp)
  | cons c rest ih =>
    intro j σ hj hlt hfail
    cases j with
    | zero =>
      have h0 : env.uploadOk σ.uploadCtr = false := by simpa using hfail
      refine ⟨{ σ with uuidCtr := σ.uuidCtr + 1, uploadCtr := σ.uploadCtr + 1 },
        [], ?_, by simp, rfl, rfl⟩
      simp [saveCrops, upload_to_storage, h0]
    | succ j' =>
      have h0 : env.uploadOk σ.uploadCtr = true := by
        have := hlt 0 (Nat.succ_pos j')
        simpa using this
      simp only [saveCrops, upload_to_storage, insert_defect_crop, h0, hI, if_true]
      have hlt' : ∀ i, i < j' →
          env.uploadOk ((cropStepSt env σ mid c).uploadCtr + i) = true := by
        intro i hi
        have harith : (cropStepSt env σ mid c).uploadCtr + i = σ.uploadCtr + (i + 1) := by
          simp [cropStepSt]
          omega
        rw [harith]
        exact hlt (i + 1) (by omega)
      have hfail' : env.uploadOk ((cropStepSt env σ mid c).uploadCtr + j') = false := by
        have harith : (cropStepSt env σ mid c).uploadCtr + j' = σ.uploadCtr + (j' + 1) := by
          simp [cropStepSt]
          omega
        rw [harith]
        exact hfail
      obtain ⟨σ', B', heq, hev, hm, hc⟩ :=
        ih j' (cropStepSt env σ mid c) (by simpa using Nat.lt_of_succ_lt_succ hj) hlt' hfail'
      refine ⟨σ', cropPutEvent env σ c :: cropInsEvent env σ mid c :: B', heq, ?_, ?_, ?_⟩
      · rw [hev]
        simp [cropStepSt, List.append_assoc]
      · simp [List.countP_cons, cropPutEvent, cropInsEvent, isInsertMainB, hm]
      · simp [List.countP_cons, cropPutEvent, cropInsEvent, isInsertCropB, hc]

/-- The two crop loops perform identical state transitions; the variant of
`pcb_model/app/pcb_db.py` merely also accumulates the payload list. -/
theorem saveCrops_agree (env : Env) (mid : String) :
    ∀ (crops : List Crop) (σ : St),
    saveCrops env σ mid crops =
      ((saveCropsUrls env σ mid crops).1,
       (saveCropsUrls env σ mid crops).2.map (fun _ => ())) := by
  intro crops
  induction crops with
  | nil =>
    intro σ
    rfl
  | cons c rest ih =>
    intro σ
    simp only [saveCrops, saveCropsUrls]
    rcases hu : upload_to_storage env σ c.bytes "pcb/crops" "png" with ⟨σ1, ru⟩
    cases ru with
    | error e => rfl
    | ok pu =>
      rcases pu with ⟨csp, cpu⟩
      dsimp only
      rcases hi : insert_defect_crop env σ1 mid csp cpu c.width c.height
        c.prediction c.confidence c.bbox with ⟨σ2, ri⟩
      cases ri with
      | error e => rfl
      | ok dres =>
        dsimp only
        rw [ih σ2]
        rcases hrec : saveCropsUrls env σ2 mid rest with ⟨σ3, rr⟩
        cases rr with
        | error e => rfl
        | ok tail => rfl

/-- The two orchestrator variants perform the same state transition (same
uploads, same inserts, same order); they differ only in the returned value. -/
theorem save_detection_agree (env : Env) (σ : St) (ip mp : String)
    (bc nt : Option String) :
    save_detection_to_supabase env σ ip mp bc nt =
      ((save_detection_to_supabase_and_get_urls env σ ip mp bc nt).1,
       (save_detection_to_supabase_and_get_urls env σ ip mp bc nt).2.map (fun _ => ())) := by
  simp only [save_detection_to_supabase, save_detection_to_supabase_and_get_urls]
  cases hd : env.detect ip mp with
  | error e => rfl
  | ok dr =>
    dsimp only
    rcases hu : upload_to_storage env
        { σ with events := σ.events ++ [Event.detectCall ip mp] }
        dr.annotated_image.bytes "pcb/main" "png" with ⟨σ1, ru⟩
    cases ru with
    | error e => rfl
    | ok pu =>
      rcases pu with ⟨msp, mpu⟩
      dsimp only
      rcases hi : insert_main_image env σ1 msp mpu dr.annotated_image.width
        dr.annotated_image.height dr.annotated_image.original_filename bc nt
        with ⟨σ2, ri⟩
      cases ri with
      | error e => rfl
      | ok mid =>
        dsimp only
        rw [saveCrops_agree env mid dr.crops σ2]
        rcases hrec : saveCropsUrls env σ2 mid dr.crops with ⟨σ3, rr⟩
        cases rr with
        | error e => rfl
        | ok tail => rfl

/-- The crop loop never consults the `os.remove` capability. -/
theorem saveCrops_removeOk (env : Env) (b : Bool) (mid : String) :
    ∀ (crops : List Crop) (σ : St),
    saveCrops { env with removeOk := b } σ mid crops = saveCrops env σ mid crops := by
  intro crops
  induction crops with
  | nil =>
    intro σ
    rfl
  | cons c rest ih =>
    intro σ
    simp only [saveCrops]
    have hup : upload_to_storage { env with removeOk := b } σ c.bytes "pcb/crops" "png"
        = upload_to_storage env σ c.bytes "pcb/crops" "png" := rfl
    rw [hup]
    rcases hu : upload_to_storage env σ c.bytes "pcb/crops" "png" with ⟨σ1, ru⟩
    cases ru with
    | error e => rfl
    | ok pu =>
      rcases pu with ⟨csp, cpu⟩
      dsimp only
      have hic : insert_defect_crop { env with removeOk := b } σ1 mid csp cpu
          c.width c.height c.prediction c.confidence c.bbox
          = insert_defect_crop env σ1 mid csp cpu
            c.width c.height c.prediction c.confidence c.bbox := rfl
      rw [hic]
      rcases hi : insert_defect_crop env σ1 mid csp cpu c.width c.height
        c.prediction c.confidence c.bbox with ⟨σ2, ri⟩
      cases ri with
      | error e => rfl
      | ok dres =>
        dsimp only
        exact ih σ2

/-- The orchestrator never consults the `os.remove` capability. -/
theorem save_detection_removeOk (env : Env) (b : Bool) (σ : St) (ip mp : String)
    (bc nt : Option String) :
    save_detection_to_supabase { env with removeOk := b } σ ip mp bc nt
      = save_detection_to_supabase env σ ip mp bc nt := by
  simp only [save_detection_to_supabase]
  have hde : ({ env with removeOk := b } : Env).detect = env.detect := rfl
  rw [hde]
  cases hd : env.detect ip mp with
  | error e => rfl
  | ok dr =>
    dsimp only
    have hup : upload_to_storage { env with removeOk := b }
        { σ with events := σ.events ++ [Event.detectCall ip mp] }
        dr.annotated_image.bytes "pcb/main" "png"
        = upload_to_storage env
          { σ with events := σ.events ++ [Event.detectCall ip mp] }
          dr.annotated_image.bytes "pcb/main" "png" := rfl
    rw [hup]
    rcases hu : upload_to_storage env
        { σ with events := σ.events ++ [Event.detectCall ip mp] }
        dr.annotated_image.bytes "pcb/main" "png" with ⟨σ1, ru⟩
    cases ru with
    | error e => rfl
    | ok pu =>
      rcases pu with ⟨msp, mpu⟩
      dsimp only
      have him : insert_main_image { env with removeOk := b } σ1 msp mpu
          dr.annotated_image.width dr.annotated_image.height
          dr.annotated_image.original_filename bc nt
          = insert_main_image env σ1 msp mpu
            dr.annotated_image.width dr.annotated_image.height
            dr.annotated_image.original_filename bc nt := rfl
      rw [him]
      rcases hi : insert_main_image env σ1 msp mpu dr.annotated_image.width
        dr.annotated_image.height dr.annotated_image.original_filename bc nt
        with ⟨σ2, ri⟩
      cases ri with
      | error e => rfl
      | ok mid =>
        dsimp only
        exact saveCrops_removeOk env b mid dr.crops σ2

/-- Removing a path removes every entry stored at it. -/
theorem fsExists_fsRemove (fs : List (String × List Nat)) (p : String) :
    fsExists (fsRemove fs p) p = false := by
  induction fs with
  | nil => rfl
  | cons e rest ih =>
    by_cases h : e.1 = p
    · simp [fsRemove, fsExists, h] at ih ⊢
    · simp [fsRemove, fsExists, h] at ih ⊢

/-- After a successful cleanup the temporary path is gone, whatever the
filesystem contained before. -/
theorem fsExists_tryCleanup (env : Env) (fs : List (String × List Nat)) (p : String)
    (h : env.removeOk = true) (hex : fsExists fs p = true) :
    fsExists (tryCleanup env fs p) p = false := by
  simp only [tryCleanup, h, hex, if_true]
  exact fsExists_fsRemove fs p

/-! ## Claim theorems -/

/-- Claim C1: for every valid image input whose DetectionResult contains `N`
crops, a successful run of `save_detection_to_supabase` inserts exactly one
MainImage row and exactly `N` DefectCrop rows, each crop row referencing the
MainImage's generated identifier; the MainImage row is inserted before every
DefectCrop row, and the crops are processed in the order produced by the
Detection Adapter (their predictions appear in the trace in crop order). -/
theorem claim_C1 (env : Env) (σ : St) (ip mp : String)
    (bc nt : Option String) (dr : DetectionResult)
    (hd : env.detect ip mp = Except.ok dr)
    (hU : ∀ n, env.uploadOk n = true) (hI : ∀ n, env.insertOk n = true) :
    ∃ σ' A mid mrow B,
      save_detection_to_supabase env σ ip mp bc nt = (σ', Except.ok ()) ∧
      σ'.events = σ.events ++ A ++ Event.insertMain mid mrow :: B ∧
      A.countP isInsertMainB = 0 ∧
      A.countP isInsertCropB = 0 ∧
      B.countP isInsertMainB = 0 ∧
      B.countP isInsertCropB = dr.crops.length ∧
      (∀ e ∈ B, isInsertCropB e = true → cropRef e = some (Jval.str mid)) ∧
      B.filterMap cropPred = dr.crops.map (fun c => Jval.str c.prediction) := by
  obtain ⟨σ', B, heq, hev, hm, hc, href, hpred⟩ :=
    save_detection_ok env σ ip mp bc nt dr hd hU hI
  refine ⟨σ', [Event.detectCall ip mp, mainPutEvent env σ dr],
    env.rowId σ.insertCtr, mainRowOf env σ dr bc nt, B, heq, ?_, ?_, ?_, hm, hc, href, hpred⟩
  · exact hev
  · simp [isInsertMainB, mainPutEvent, List.countP_cons]
  · simp [isInsertCropB, mainPutEvent, List.countP_cons]

/-- Concrete instantiation of claim C1 at the test fixture. -/
theorem claim_C1_witness :
    testEnv.detect "test1.png" "best.pt" = Except.ok testDR
    ∧ (∀ n, testEnv.uploadOk n = true)
    ∧ (∀ n, testEnv.insertOk n = true)
    ∧ (∃ σ' A mid mrow B,
        save_detection_to_supabase testEnv st0 "test1.png" "best.pt"
          (some "BOARD-0001") (some "Test upload from split files") = (σ', Except.ok ()) ∧
        σ'.events = st0.events ++ A ++ Event.insertMain mid mrow :: B ∧
        A.countP isInsertMainB = 0 ∧
        A.countP isInsertCropB = 0 ∧
        B.countP isInsertMainB = 0 ∧
        B.countP isInsertCropB = testDR.crops.length ∧
        (∀ e ∈ B, isInsertCropB e = true → cropRef e = some (Jval.str mid)) ∧
        B.filterMap cropPred = testDR.crops.map (fun c => Jval.str c.prediction)) :=
  ⟨rfl, fun _ => rfl, fun _ => rfl,
    claim_C1 testEnv st0 "test1.png" "best.pt"
      (some "BOARD-0001") (some "Test upload from split files") testDR rfl
      (fun _ => rfl) (fun _ => rfl)⟩

/-- If the upload of crop `k` (1-based) fails after a successful model call,
main upload and MainImage insert, the orchestrator raises `UploadError`
having appended exactly one MainImage insert and `k - 1` DefectCrop inserts. -/
theorem save_detection_failAt (env : Env) (σ : St) (ip mp : String)
    (bc nt : Option String) (dr : DetectionResult) (k : Nat)
    (hd : env.detect ip mp = Except.ok dr)
    (hI : ∀ n, env.insertOk n = true)
    (hk1 : 1 ≤ k) (hkN : k ≤ dr.crops.length)
    (hup0 : env.uploadOk σ.uploadCtr = true)
    (hmid : ∀ j, j + 1 < k → env.uploadOk (σ.uploadCtr + 1 + j) = true)
    (hfail : env.uploadOk (σ.uploadCtr + k) = false) :
    ∃ σ' B, save_detection_to_supabase env σ ip mp bc nt
        = (σ', Except.error "UploadError") ∧
      σ'.events = σ.events ++ B ∧
      B.countP isInsertMainB = 1 ∧
      B.countP isInsertCropB = k - 1 := by
  simp only [save_detection_to_supabase, upload_to_storage, insert_main_image,
    hd, hup0, hI, if_true]
  have hmid' : ∀ i, i < k - 1 →
      env.uploadOk (({ σ with
          uuidCtr := σ.uuidCtr + 1
          uploadCtr := σ.uploadCtr + 1
          insertCtr := σ.insertCtr + 1
          events := σ.events ++ [Event.detectCall ip mp] ++ [mainPutEvent env σ dr]
            ++ [mainInsEvent env σ dr bc nt] } : St).uploadCtr + i) = true := by
    intro i hi
    have harith : σ.uploadCtr + 1 + i = σ.uploadCtr + 1 + i := rfl
    exact hmid i (by omega)
  have hfail' : env.uploadOk (({ σ with
      uuidCtr := σ.uuidCtr + 1
      uploadCtr := σ.uploadCtr + 1
      insertCtr := σ.insertCtr + 1
      events := σ.events ++ [Event.detectCall ip mp] ++ [mainPutEvent env σ dr]
        ++ [mainInsEvent env σ dr bc nt] } : St).uploadCtr + (k - 1)) = false := by
    have harith : σ.uploadCtr + 1 + (k - 1) = σ.uploadCtr + k := by omega
    simpa [harith] using hfail
  obtain ⟨σ', B', heq, hev, hm, hc⟩ :=
    saveCrops_failAt env (env.rowId σ.insertCtr) hI dr.crops (k - 1)
      { σ with
          uuidCtr := σ.uuidCtr + 1
          uploadCtr := σ.uploadCtr + 1
          insertCtr := σ.insertCtr + 1
          events := σ.events ++ [Event.detectCall ip mp] ++ [mainPutEvent env σ dr]
            ++ [mainInsEvent env σ dr bc nt] }
      (by omega) hmid' hfail'
  refine ⟨σ', Event.detectCall ip mp :: mainPutEvent env σ dr ::
    mainInsEvent env σ dr bc nt :: B', heq, ?_, ?_, ?_⟩
  · rw [hev]
    simp [List.append_assoc]
  · simp [List.countP_cons, isInsertMainB, mainPutEvent, mainInsEvent, hm]
  · simp [List.countP_cons, isInsertCropB, mainPutEvent, mainInsEvent, hc]

/-- Claim C2: if the Storage Uploader fails while uploading crop `k`
(`1 ≤ k ≤ N`, after the main image was uploaded and its row inserted), the
request ends in a 500 server error and the backend retains exactly one
MainImage row and exactly `k - 1` DefectCrop rows — nothing is rolled back. -/
theorem claim_C2 (env : Env) (w : WebSt) (file : UploadFileM)
    (bc nt : Option String) (dr : DetectionResult) (k : Nat)
    (hct : strStartsWith file.content_type "image/" = true)
    (hwr : pathWritable w.dirs
      (UPLOAD_DIR ++ "/" ++ tmpName env w.db file.filename) = true)
    (hdet : ∀ p m, env.detect p m = Except.ok dr)
    (hI : ∀ n, env.insertOk n = true)
    (hk1 : 1 ≤ k) (hkN : k ≤ dr.crops.length)
    (hup0 : env.uploadOk w.db.uploadCtr = true)
    (hmid : ∀ j, j + 1 < k → env.uploadOk (w.db.uploadCtr + 1 + j) = true)
    (hfail : env.uploadOk (w.db.uploadCtr + k) = false) :
    ∃ w' B,
      detect_pcb env w file bc nt
        = (w', Response.httpError 500 "processing error: UploadError") ∧
      w'.db.events = w.db.events ++ B ∧
      B.countP isInsertMainB = 1 ∧
      B.countP isInsertCropB = k - 1 := by
  simp only [detect_pcb, hct, hwr, if_true]
  obtain ⟨σ', B, heq, hev, hm, hc⟩ :=
    save_detection_failAt env { w.db with uuidCtr := w.db.uuidCtr + 1 }
      (UPLOAD_DIR ++ "/" ++ tmpName env w.db file.filename) "pcb_model/best.pt"
      bc nt dr k (hdet _ _) hI hk1 hkN hup0 hmid hfail
  rw [heq]
  refine ⟨⟨tryCleanup env
      (fsWrite w.fs (UPLOAD_DIR ++ "/" ++ tmpName env w.db file.filename) file.contents)
      (UPLOAD_DIR ++ "/" ++ tmpName env w.db file.filename), w.dirs, σ'⟩,
    B, ?_, hev, hm, hc⟩
  rfl

/-- Concrete instantiation of claim C2: the single crop's upload fails
(`k = 1`, `N = 1`), leaving one MainImage row and zero DefectCrop rows. -/
theorem claim_C2_witness :
    strStartsWith testFile.content_type "image/" = true
    ∧ pathWritable w0.dirs
        (UPLOAD_DIR ++ "/" ++ tmpName failEnv1 w0.db testFile.filename) = true
    ∧ (∀ p m, failEnv1.detect p m = Except.ok testDR)
    ∧ (∀ n, failEnv1.insertOk n = true)
    ∧ failEnv1.uploadOk w0.db.uploadCtr = true
    ∧ failEnv1.uploadOk (w0.db.uploadCtr + 1) = false
    ∧ (∃ w' B,
        detect_pcb failEnv1 w0 testFile none none
          = (w', Response.httpError 500 "processing error: UploadError") ∧
        w'.db.events = w0.db.events ++ B ∧
        B.countP isInsertMainB = 1 ∧
        B.countP isInsertCropB = 1 - 1) :=
  ⟨by decide, by decide, fun _ _ => rfl, fun _ => rfl, rfl, rfl,
    claim_C2 failEnv1 w0 testFile none none testDR 1 (by decide) (by decide)
      (fun _ _ => rfl) (fun _ => rfl) (by omega) (by decide) rfl
      (fun j h => absurd h (by omega)) rfl⟩

/-- Claim C3: a request whose declared content type does not start with
`image/` is answered with the 400 client error and the handler performs no
side effect at all — the filesystem and backend state are returned exactly as
given, and since the result does not depend on any collaborator in `env`, no
temporary file is written, no model call and no backend call is made. -/
theorem claim_C3 (env : Env) (w : WebSt) (file : UploadFileM) (bc nt : Option String)
    (hct : strStartsWith file.content_type "image/" = false) :
    detect_pcb env w file bc nt
      = (w, Response.httpError 400 "กรุณาอัปโหลดไฟล์รูปภาพเท่านั้น") := by
  simp [detect_pcb, hct]

/-- Concrete instantiation of claim C3 at a `text/plain` upload. -/
theorem claim_C3_witness :
    strStartsWith badFile.content_type "image/" = false
    ∧ detect_pcb testEnv w0 badFile none none
      = (w0, Response.httpError 400 "กรุณาอัปโหลดไฟล์รูปภาพเท่านั้น") :=
  ⟨by decide, claim_C3 testEnv w0 badFile none none (by decide)⟩

/-- Claim C4: `insert_main_image` stores the absent optional fields
(filename, board code, note) as explicit nulls — the keys are always present
in the inserted row, with `None` serialised as null — while
`insert_defect_crop` stores the four bounding-box columns only when a
bounding box was supplied: with no bbox the four keys are absent from the
insert payload and the resulting columns are null, and whenever a bbox key is
present in the payload the bbox argument was truthy (and the four values are
then taken from the dict). -/
theorem claim_C4 (env : Env) (σ : St) (sp pu : String) (wd ht : Int)
    (ofn bc nt : Option String) (mid csp cpu : String) (cw ch : Int)
    (pr : String) (cf : Rat)
    (hins : env.insertOk σ.insertCtr = true) :
    (∃ i σ', insert_main_image env σ sp pu wd ht ofn bc nt = (σ', Except.ok i)
      ∧ σ'.events = σ.events ++ [Event.insertMain i (mainImageRow sp pu wd ht ofn bc nt)]
      ∧ (mainImageRow sp pu wd ht ofn bc nt).lookup "original_filename" = some (joptStr ofn)
      ∧ (mainImageRow sp pu wd ht ofn bc nt).lookup "board_code" = some (joptStr bc)
      ∧ (mainImageRow sp pu wd ht ofn bc nt).lookup "note" = some (joptStr nt)
      ∧ joptStr none = Jval.null)
    ∧ (∃ i σ', insert_defect_crop env σ mid csp cpu cw ch pr cf none
        = (σ', Except.ok (i, cropRowData mid csp cpu cw ch pr cf none))
      ∧ σ'.events = σ.events ++ [Event.insertCrop i (cropRowData mid csp cpu cw ch pr cf none)]
      ∧ (cropRowData mid csp cpu cw ch pr cf none).lookup "bbox_x" = none
      ∧ (cropRowData mid csp cpu cw ch pr cf none).lookup "bbox_y" = none
      ∧ (cropRowData mid csp cpu cw ch pr cf none).lookup "bbox_width" = none
      ∧ (cropRowData mid csp cpu cw ch pr cf none).lookup "bbox_height" = none
      ∧ colValue (cropRowData mid csp cpu cw ch pr cf none) "bbox_x" = Jval.null
      ∧ colValue (cropRowData mid csp cpu cw ch pr cf none) "bbox_y" = Jval.null
      ∧ colValue (cropRowData mid csp cpu cw ch pr cf none) "bbox_width" = Jval.null
      ∧ colValue (cropRowData mid csp cpu cw ch pr cf none) "bbox_height" = Jval.null)
    ∧ (∀ bb : Option (List (String × Int)),
        ((cropRowData mid csp cpu cw ch pr cf bb).lookup "bbox_x").isSome = true →
          dictTruthy bb = true)
    ∧ (∀ k : String, ∀ v : Int, ∀ r : List (String × Int),
        (cropRowData mid csp cpu cw ch pr cf (some ((k, v) :: r))).lookup "bbox_x"
          = some (bboxGet ((k, v) :: r) "x")
        ∧ (cropRowData mid csp cpu cw ch pr cf (some ((k, v) :: r))).lookup "bbox_y"
          = some (bboxGet ((k, v) :: r) "y")
        ∧ (cropRowData mid csp cpu cw ch pr cf (some ((k, v) :: r))).lookup "bbox_width"
          = some (bboxGet ((k, v) :: r) "w")
        ∧ (cropRowData mid csp cpu cw ch pr cf (some ((k, v) :: r))).lookup "bbox_height"
          = some (bboxGet ((k, v) :: r) "h")) := by
  refine ⟨?_, ?_, ?_, ?_⟩
  · exact ⟨env.rowId σ.insertCtr, _,
      insert_main_ok_eq env σ sp pu wd ht ofn bc nt hins, rfl, rfl, rfl, rfl, rfl⟩
  · exact ⟨env.rowId σ.insertCtr, _,
      insert_crop_ok_eq env σ mid csp cpu cw ch pr cf none hins,
      rfl, rfl, rfl, rfl, rfl, rfl, rfl, rfl, rfl⟩
  · intro bb h
    match bb with
    | none => simp [cropRowData] at h
    | some [] => simp [cropRowData] at h
    | some ((k, v) :: r) => rfl
  · intro k v r
    exact ⟨rfl, rfl, rfl, rfl⟩

/-- Concrete instantiation of claim C4. -/
theorem claim_C4_witness :
    testEnv.insertOk st0.insertCtr = true
    ∧ ((∃ i σ', insert_main_image testEnv st0 "pcb/main/u0.png" "url" 640 480
          none none none = (σ', Except.ok i)
      ∧ σ'.events = st0.events
          ++ [Event.insertMain i (mainImageRow "pcb/main/u0.png" "url" 640 480 none none none)]
      ∧ (mainImageRow "pcb/main/u0.png" "url" 640 480 none none none).lookup "original_filename"
          = some (joptStr none)
      ∧ (mainImageRow "pcb/main/u0.png" "url" 640 480 none none none).lookup "board_code"
          = some (joptStr none)
      ∧ (mainImageRow "pcb/main/u0.png" "url" 640 480 none none none).lookup "note"
          = some (joptStr none)
      ∧ joptStr none = Jval.null)
    ∧ (∃ i σ', insert_defect_crop testEnv st0 "m1" "p" "u" 20 20 "scratch" 1 none
        = (σ', Except.ok (i, cropRowData "m1" "p" "u" 20 20 "scratch" 1 none))
      ∧ σ'.events = st0.events
          ++ [Event.insertCrop i (cropRowData "m1" "p" "u" 20 20 "scratch" 1 none)]
      ∧ (cropRowData "m1" "p" "u" 20 20 "scratch" 1 none).lookup "bbox_x" = none
      ∧ (cropRowData "m1" "p" "u" 20 20 "scratch" 1 none).lookup "bbox_y" = none
      ∧ (cropRowData "m1" "p" "u" 20 20 "scratch" 1 none).lookup "bbox_width" = none
      ∧ (cropRowData "m1" "p" "u" 20 20 "scratch" 1 none).lookup "bbox_height" = none
      ∧ colValue (cropRowData "m1" "p" "u" 20 20 "scratch" 1 none) "bbox_x" = Jval.null
      ∧ colValue (cropRowData "m1" "p" "u" 20 20 "scratch" 1 none) "bbox_y" = Jval.null
      ∧ colValue (cropRowData "m1" "p" "u" 20 20 "scratch" 1 none) "bbox_width" = Jval.null
      ∧ colValue (cropRowData "m1" "p" "u" 20 20 "scratch" 1 none) "bbox_height" = Jval.null)
    ∧ (∀ bb : Option (List (String × Int)),
        ((cropRowData "m1" "p" "u" 20 20 "scratch" 1 bb).lookup "bbox_x").isSome = true →
          dictTruthy bb = true)
    ∧ (∀ k : String, ∀ v : Int, ∀ r : List (String × Int),
        (cropRowData "m1" "p" "u" 20 20 "scratch" 1 (some ((k, v) :: r))).lookup "bbox_x"
          = some (bboxGet ((k, v) :: r) "x")
        ∧ (cropRowData "m1" "p" "u" 20 20 "scratch" 1 (some ((k, v) :: r))).lookup "bbox_y"
          = some (bboxGet ((k, v) :: r) "y")
        ∧ (cropRowData "m1" "p" "u" 20 20 "scratch" 1 (some ((k, v) :: r))).lookup "bbox_width"
          = some (bboxGet ((k, v) :: r) "w")
        ∧ (cropRowData "m1" "p" "u" 20 20 "scratch" 1 (some ((k, v) :: r))).lookup "bbox_height"
          = some (bboxGet ((k, v) :: r) "h"))) :=
  ⟨rfl, claim_C4 testEnv st0 "pcb/main/u0.png" "url" 640 480 none none none
    "m1" "p" "u" 20 20 "scratch" 1 rfl⟩

/-- Claim C5: on a fully successful run the handler answers with exactly the
payload `{status: "ok", message, board_code, note, original_filename}`, with
the input board code and note echoed unmodified (null when omitted), and the
persisted MainImage row carries the same board code and note values (null
when omitted). -/
theorem claim_C5 (env : Env) (w : WebSt) (file : UploadFileM) (bc nt : Option String)
    (dr : DetectionResult)
    (hct : strStartsWith file.content_type "image/" = true)
    (hwr : pathWritable w.dirs
      (UPLOAD_DIR ++ "/" ++ tmpName env w.db file.filename) = true)
    (hdet : ∀ p m, env.detect p m = Except.ok dr)
    (hU : ∀ n, env.uploadOk n = true) (hI : ∀ n, env.insertOk n = true) :
    ∃ w', detect_pcb env w file bc nt
        = (w', Response.jsonOk ⟨"ok", "Image processed and saved to Supabase.",
            bc, nt, file.filename⟩)
      ∧ ∃ i row, Event.insertMain i row ∈ w'.db.events
        ∧ row.lookup "board_code" = some (joptStr bc)
        ∧ row.lookup "note" = some (joptStr nt)
        ∧ (bc = none → row.lookup "board_code" = some Jval.null)
        ∧ (nt = none → row.lookup "note" = some Jval.null) := by
  simp only [detect_pcb, hct, hwr, if_true]
  obtain ⟨σ', B, heq, hev, hm, hc, href, hpred⟩ :=
    save_detection_ok env { w.db with uuidCtr := w.db.uuidCtr + 1 }
      (UPLOAD_DIR ++ "/" ++ tmpName env w.db file.filename) "pcb_model/best.pt"
      bc nt dr (hdet _ _) hU hI
  rw [heq]
  refine ⟨⟨tryCleanup env
      (fsWrite w.fs (UPLOAD_DIR ++ "/" ++ tmpName env w.db file.filename) file.contents)
      (UPLOAD_DIR ++ "/" ++ tmpName env w.db file.filename), w.dirs, σ'⟩, rfl,
    env.rowId w.db.insertCtr,
    mainRowOf env { w.db with uuidCtr := w.db.uuidCtr + 1 } dr bc nt, ?_, rfl, rfl, ?_, ?_⟩
  · rw [hev]
    simp [mainInsEvent]
  · intro h
    subst h
    rfl
  · intro h
    subst h
    rfl

/-- Concrete instantiation of claim C5 at the test fixture. -/
theorem claim_C5_witness :
    strStartsWith testFile.content_type "image/" = true
    ∧ pathWritable w0.dirs
        (UPLOAD_DIR ++ "/" ++ tmpName testEnv w0.db testFile.filename) = true
    ∧ (∀ p m, testEnv.detect p m = Except.ok testDR)
    ∧ (∃ w', detect_pcb testEnv w0 testFile (some "B-7") none
        = (w', Response.jsonOk ⟨"ok", "Image processed and saved to Supabase.",
            some "B-7", none, testFile.filename⟩)
      ∧ ∃ i row, Event.insertMain i row ∈ w'.db.events
        ∧ row.lookup "board_code" = some (joptStr (some "B-7"))
        ∧ row.lookup "note" = some (joptStr none)
        ∧ (some "B-7" = none → row.lookup "board_code" = some Jval.null)
        ∧ ((none : Option String) = none → row.lookup "note" = some Jval.null)) :=
  ⟨by decide, by decide, fun _ _ => rfl,
    claim_C5 testEnv w0 testFile (some "B-7") none testDR (by decide) (by decide)
      (fun _ _ => rfl) (fun _ => rfl) (fun _ => rfl)⟩

/-- Claim C6: the handler always attempts to delete the temporary file on
exit — when `os.remove` works the temporary path is absent from the final
filesystem whether the orchestration succeeded or failed — and a failure of
the deletion itself is swallowed: the handler still returns normally and the
response is identical to the one produced when deletion succeeds. -/
theorem claim_C6 (env : Env) (w : WebSt) (file : UploadFileM) (bc nt : Option String)
    (hct : strStartsWith file.content_type "image/" = true)
    (hwr : pathWritable w.dirs
      (UPLOAD_DIR ++ "/" ++ tmpName env w.db file.filename) = true) :
    (detect_pcb { env with removeOk := false } w file bc nt).2
      = (detect_pcb env w file bc nt).2
    ∧ (env.removeOk = true →
        fsExists (detect_pcb env w file bc nt).1.fs
          (UPLOAD_DIR ++ "/" ++ tmpName env w.db file.filename) = false) := by
  constructor
  · simp only [detect_pcb, hct, if_true]
    have h1 : tmpName { env with removeOk := false } w.db file.filename
        = tmpName env w.db file.filename := rfl
    rw [h1, save_detection_removeOk, hwr]
    simp only [if_true]
    rcases save_detection_to_supabase env { w.db with uuidCtr := w.db.uuidCtr + 1 }
      (UPLOAD_DIR ++ "/" ++ tmpName env w.db file.filename) "pcb_model/best.pt" bc nt
      with ⟨db1, r⟩
    cases r <;> rfl
  · intro hrm
    simp only [detect_pcb, hct, hwr, if_true]
    rcases save_detection_to_supabase env { w.db with uuidCtr := w.db.uuidCtr + 1 }
      (UPLOAD_DIR ++ "/" ++ tmpName env w.db file.filename) "pcb_model/best.pt" bc nt
      with ⟨db1, r⟩
    cases r with
    | error e =>
      exact fsExists_tryCleanup env _ _ hrm (by simp [fsWrite, fsExists])
    | ok u =>
      exact fsExists_tryCleanup env _ _ hrm (by simp [fsWrite, fsExists])

/-- Concrete instantiation of claim C6. -/
theorem claim_C6_witness :
    strStartsWith testFile.content_type "image/" = true
    ∧ pathWritable w0.dirs
        (UPLOAD_DIR ++ "/" ++ tmpName testEnv w0.db testFile.filename) = true
    ∧ testEnv.removeOk = true
    ∧ (detect_pcb { testEnv with removeOk := false } w0 testFile none none).2
        = (detect_pcb testEnv w0 testFile none none).2
    ∧ fsExists (detect_pcb testEnv w0 testFile none none).1.fs
        (UPLOAD_DIR ++ "/" ++ tmpName testEnv w0.db testFile.filename) = false :=
  ⟨by decide, by decide, rfl,
    (claim_C6 testEnv w0 testFile none none (by decide) (by decide)).1,
    (claim_C6 testEnv w0 testFile none none (by decide) (by decide)).2 rfl⟩

/-- Claim C7: a successful `upload_to_storage(bytes, folder, ext)` stores the
bytes under the path formed from the folder and a freshly drawn name from the
UUID source (the code draws `uuid.uuid4().hex`, a version-4 UUID; its 122
bits of entropy are a property of the Python library modelled by the abstract
stream `Env.uuids`, whose next value is consumed exactly once here), writes
with the content type derived from the extension, and returns the stored path
together with the public URL of that path. -/
theorem claim_C7 (env : Env) (σ : St) (b : List Nat) (folder ext : String)
    (h : env.uploadOk σ.uploadCtr = true) :
    ∃ p u σ', upload_to_storage env σ b folder ext = (σ', Except.ok (p, u))
      ∧ p = folder ++ "/" ++ (env.uuids σ.uuidCtr ++ "." ++ ext)
      ∧ σ'.uuidCtr = σ.uuidCtr + 1
      ∧ σ'.events = σ.events
          ++ [Event.storagePut (BUCKET_NAME env.environ) p b ("image/" ++ ext)]
      ∧ u = env.publicUrl (BUCKET_NAME env.environ) p := by
  refine ⟨folder ++ "/" ++ (env.uuids σ.uuidCtr ++ "." ++ ext),
    env.publicUrl (BUCKET_NAME env.environ)
      (folder ++ "/" ++ (env.uuids σ.uuidCtr ++ "." ++ ext)), _,
    upload_ok_eq env σ b folder ext h, rfl, rfl, rfl, rfl⟩

/-- Concrete instantiation of claim C7. -/
theorem claim_C7_witness :
    testEnv.uploadOk st0.uploadCtr = true
    ∧ (∃ p u σ', upload_to_storage testEnv st0 [5, 6] "pcb/main" "png"
        = (σ', Except.ok (p, u))
      ∧ p = "pcb/main" ++ "/" ++ (testEnv.uuids st0.uuidCtr ++ "." ++ "png")
      ∧ σ'.uuidCtr = st0.uuidCtr + 1
      ∧ σ'.events = st0.events
          ++ [Event.storagePut (BUCKET_NAME testEnv.environ) p [5, 6] ("image/" ++ "png")]
      ∧ u = testEnv.publicUrl (BUCKET_NAME testEnv.environ) p) :=
  ⟨rfl, claim_C7 testEnv st0 [5, 6] "pcb/main" "png" rfl⟩

/-- Claim C8: on every input the two orchestrator variants perform the same
state transition — the same detect call, uploads and row inserts with the
same field values in the same order, succeeding or failing identically — and
differ only in the returned value: `save_detection_to_supabase` returns
nothing where `save_detection_to_supabase_and_get_urls` returns the full
payload of identifiers, URLs and metadata. -/
theorem claim_C8 (env : Env) (σ : St) (ip mp : String) (bc nt : Option String) :
    save_detection_to_supabase env σ ip mp bc nt =
      ((save_detection_to_supabase_and_get_urls env σ ip mp bc nt).1,
       (save_detection_to_supabase_and_get_urls env σ ip mp bc nt).2.map (fun _ => ())) :=
  save_detection_agree env σ ip mp bc nt

/-- Claim C9 as stated is false: the model-artifact path is NOT
environment-sourced.  Running the handler under two environments — one with
no configuration variable set, one with every variable set (and a different
backend URL) — records the identical hard-coded model path
`"pcb_model/best.pt"` in the detect call both times. -/
theorem claim_C9_counterexample :
    (detect_pcb testEnv w0 testFile none none).1.db.events.filterMap modelPathOf
      = ["pcb_model/best.pt"]
    ∧ (detect_pcb envFull w0 testFile none none).1.db.events.filterMap modelPathOf
      = ["pcb_model/best.pt"]
    ∧ SUPABASE_URL envFull.environ ≠ SUPABASE_URL testEnv.environ := by
  refine ⟨by decide, by decide, by decide⟩

/-- Claim C9, amended: the backend endpoint URL, the backend credential and
the storage bucket name are environment-sourced (the bucket with the
documented default `"pcb-images"`), but the model-artifact path the Request
Handler passes to the orchestration is the hard-coded literal
`"pcb_model/best.pt"` for every environment, not an environment value. -/
theorem claim_C9_amended (env : Env) (w : WebSt) (file : UploadFileM)
    (bc nt : Option String)
    (hct : strStartsWith file.content_type "image/" = true)
    (hwr : pathWritable w.dirs
      (UPLOAD_DIR ++ "/" ++ tmpName env w.db file.filename) = true) :
    (∃ ip t, (detect_pcb env w file bc nt).1.db.events.drop w.db.events.length
        = Event.detectCall ip "pcb_model/best.pt" :: t)
    ∧ (∀ e : String → Option String, SUPABASE_URL e = e "SUPABASE_URL")
    ∧ (∀ e : String → Option String, SUPABASE_KEY e = e "SUPABASE_SERVICE_ROLE_KEY")
    ∧ (∀ e : String → Option String, ∀ b, e "SUPABASE_BUCKET_NAME" = some b →
        BUCKET_NAME e = b)
    ∧ BUCKET_NAME (fun _ => none) = "pcb-images" := by
  refine ⟨?_, fun e => rfl, fun e => rfl, ?_, rfl⟩
  · simp only [detect_pcb, hct, hwr, if_true]
    obtain ⟨t, ht⟩ := save_detection_events env { w.db with uuidCtr := w.db.uuidCtr + 1 }
      (UPLOAD_DIR ++ "/" ++ tmpName env w.db file.filename) "pcb_model/best.pt" bc nt
    refine ⟨UPLOAD_DIR ++ "/" ++ tmpName env w.db file.filename, t, ?_⟩
    rcases hres : save_detection_to_supabase env { w.db with uuidCtr := w.db.uuidCtr + 1 }
      (UPLOAD_DIR ++ "/" ++ tmpName env w.db file.filename) "pcb_model/best.pt" bc nt
      with ⟨db1, r⟩
    rw [hres] at ht
    dsimp only at ht
    cases r with
    | error e =>
      dsimp only
      rw [ht]
      exact List.drop_left w.db.events _
    | ok u =>
      dsimp only
      rw [ht]
      exact List.drop_left w.db.events _
  · intro e b h
    simp [BUCKET_NAME, h]

/-- Concrete instantiation of the amended claim C9. -/
theorem claim_C9_witness :
    strStartsWith testFile.content_type "image/" = true
    ∧ pathWritable w0.dirs
        (UPLOAD_DIR ++ "/" ++ tmpName envFull w0.db testFile.filename) = true
    ∧ ((∃ ip t, (detect_pcb envFull w0 testFile none none).1.db.events.drop
          w0.db.events.length = Event.detectCall ip "pcb_model/best.pt" :: t)
    ∧ (∀ e : String → Option String, SUPABASE_URL e = e "SUPABASE_URL")
    ∧ (∀ e : String → Option String, SUPABASE_KEY e = e "SUPABASE_SERVICE_ROLE_KEY")
    ∧ (∀ e : String → Option String, ∀ b, e "SUPABASE_BUCKET_NAME" = some b →
        BUCKET_NAME e = b)
    ∧ BUCKET_NAME (fun _ => none) = "pcb-images") :=
  ⟨by decide, by decide,
    claim_C9_amended envFull w0 testFile none none (by decide) (by decide)⟩

/-- Claim C10 as stated is false in its consequence: at the separator-bearing
client filename `"a/../../evil.png"` the constructed path is indeed the
unsanitised `"uploads/deadbeef_a/../../evil.png"`, but `open` raises
`FileNotFoundError` — the intermediate directory `uploads/deadbeef_a` never
exists, since the fresh UUID prefixes the first traversal component and the
handler creates no subdirectories — so the request answers 500 and NO file is
written anywhere, inside or outside the uploads directory: the final
filesystem is exactly the initial (empty) one. -/
theorem claim_C10_counterexample :
    strStartsWith evilFile.content_type "image/" = true
    ∧ ('/' ∈ evilFile.filename.data)
    ∧ pathWritable w0.dirs
        ("uploads/" ++ noRemoveEnv.uuids w0.db.uuidCtr ++ "_" ++ evilFile.filename) = false
    ∧ (detect_pcb noRemoveEnv w0 evilFile none none).1.fs = []
    ∧ (detect_pcb noRemoveEnv w0 evilFile none none).2
        = Response.httpError 500 "processing error: FileNotFoundError" :=
  ⟨by decide, by decide, by decide, by decide, by decide⟩

/-- Claim C10, amended: for every accepted request the temporary local path
is exactly the string `"uploads/"` followed by the fresh UUID draw, an
underscore, and the client-supplied original filename embedded verbatim with
no sanitisation, and when the write succeeds the file lands at exactly that
path (observed with deletion disabled).  For a filename containing path
separators the constructed path resolves lexically to a location outside the
uploads directory (`"a/../../evil.png"` resolves to `"evil.png"`), but the
write itself is not performed: under the deployed directory layout (only
`uploads` exists) the path is not writable, `open` raises
`FileNotFoundError`, the request answers 500, and no file — and no model or
backend call — is produced. -/
theorem claim_C10_amended (env : Env) (w : WebSt) (bc nt : Option String)
    (hrm : env.removeOk = false) :
    (∀ file : UploadFileM,
      UPLOAD_DIR ++ "/" ++ tmpName env w.db file.filename
        = "uploads/" ++ env.uuids w.db.uuidCtr ++ "_" ++ file.filename)
    ∧ (∀ file : UploadFileM, strStartsWith file.content_type "image/" = true →
        pathWritable w.dirs (UPLOAD_DIR ++ "/" ++ tmpName env w.db file.filename) = true →
        ("uploads/" ++ env.uuids w.db.uuidCtr ++ "_" ++ file.filename, file.contents)
          ∈ (detect_pcb env w file bc nt).1.fs)
    ∧ (∀ file : UploadFileM, strStartsWith file.content_type "image/" = true →
        pathWritable w.dirs (UPLOAD_DIR ++ "/" ++ tmpName env w.db file.filename) = false →
        (detect_pcb env w file bc nt).1.fs = w.fs
        ∧ (detect_pcb env w file bc nt).1.db.events = w.db.events
        ∧ (detect_pcb env w file bc nt).2
            = Response.httpError 500 "processing error: FileNotFoundError")
    ∧ (env.uuids w.db.uuidCtr = "deadbeef" →
        lexNormalize ("uploads/" ++ env.uuids w.db.uuidCtr ++ "_" ++ "a/../../evil.png")
          = "evil.png"
        ∧ strStartsWith
            (lexNormalize ("uploads/" ++ env.uuids w.db.uuidCtr ++ "_" ++ "a/../../evil.png"))
            "uploads/" = false
        ∧ (w.dirs = ["uploads"] →
            pathWritable w.dirs
              ("uploads/" ++ env.uuids w.db.uuidCtr ++ "_" ++ "a/../../evil.png") = false)) := by
  have hpath : ∀ file : UploadFileM,
      UPLOAD_DIR ++ "/" ++ tmpName env w.db file.filename
        = "uploads/" ++ env.uuids w.db.uuidCtr ++ "_" ++ file.filename := by
    intro file
    simp [UPLOAD_DIR, tmpName, String.append_assoc]
  refine ⟨hpath, ?_, ?_, ?_⟩
  · intro file hct hwr
    have hclean : ∀ fs p, tryCleanup env fs p = fs := by
      intro fs p
      simp [tryCleanup, hrm]
    simp only [detect_pcb, hct, hwr, if_true]
    rcases save_detection_to_supabase env { w.db with uuidCtr := w.db.uuidCtr + 1 }
      (UPLOAD_DIR ++ "/" ++ tmpName env w.db file.filename) "pcb_model/best.pt" bc nt
      with ⟨db1, r⟩
    cases r with
    | error e =>
      dsimp only
      rw [hclean, ← hpath file]
      exact List.mem_cons_self _ _
    | ok u =>
      dsimp only
      rw [hclean, ← hpath file]
      exact List.mem_cons_self _ _
  · intro file hct hwf
    refine ⟨?_, ?_, ?_⟩ <;> simp [detect_pcb, hct, hwf]
  · intro h
    refine ⟨?_, ?_, ?_⟩
    · rw [h]
      decide
    · rw [h]
      decide
    · intro hd
      rw [h, hd]
      decide

/-- Concrete instantiation of the amended claim C10 under an environment
whose next UUID draw is `"deadbeef"` and whose `os.remove` fails (so a
successful write stays visible). -/
theorem claim_C10_witness :
    noRemoveEnv.removeOk = false
    ∧ noRemoveEnv.uuids w0.db.uuidCtr = "deadbeef"
    ∧ w0.dirs = ["uploads"]
    ∧ ((∀ file : UploadFileM,
        UPLOAD_DIR ++ "/" ++ tmpName noRemoveEnv w0.db file.filename
          = "uploads/" ++ noRemoveEnv.uuids w0.db.uuidCtr ++ "_" ++ file.filename)
    ∧ (∀ file : UploadFileM, strStartsWith file.content_type "image/" = true →
        pathWritable w0.dirs
          (UPLOAD_DIR ++ "/" ++ tmpName noRemoveEnv w0.db file.filename) = true →
        ("uploads/" ++ noRemoveEnv.uuids w0.db.uuidCtr ++ "_" ++ file.filename, file.contents)
          ∈ (detect_pcb noRemoveEnv w0 file none none).1.fs)
    ∧ (∀ file : UploadFileM, strStartsWith file.content_type "image/" = true →
        pathWritable w0.dirs
          (UPLOAD_DIR ++ "/" ++ tmpName noRemoveEnv w0.db file.filename) = false →
        (detect_pcb noRemoveEnv w0 file none none).1.fs = w0.fs
        ∧ (detect_pcb noRemoveEnv w0 file none none).1.db.events = w0.db.events
        ∧ (detect_pcb noRemoveEnv w0 file none none).2
            = Response.httpError 500 "processing error: FileNotFoundError")
    ∧ (noRemoveEnv.uuids w0.db.uuidCtr = "deadbeef" →
        lexNormalize ("uploads/" ++ noRemoveEnv.uuids w0.db.uuidCtr ++ "_"
            ++ "a/../../evil.png") = "evil.png"
        ∧ strStartsWith
            (lexNormalize ("uploads/" ++ noRemoveEnv.uuids w0.db.uuidCtr ++ "_"
              ++ "a/../../evil.png")) "uploads/" = false
        ∧ (w0.dirs = ["uploads"] →
            pathWritable w0.dirs
              ("uploads/" ++ noRemoveEnv.uuids w0.db.uuidCtr ++ "_"
                ++ "a/../../evil.png") = false))) :=
  ⟨rfl, rfl, rfl, claim_C10_amended noRemoveEnv w0 none none rfl⟩
